import Mathlib

/-!
Shallow embedding of the HealthAPI authentication and credential-lifecycle
flow: the `User` entity (`src/app/src/entities/user.entity.ts`), the
`UsersService` store operations (`src/app/src/services/user.service.ts`) and
the `AuthController` endpoints (`src/app/src/controllers/auth.controller.ts`).
The repository's `AuthService` body is not among the source files, so the
operations it implements (login token issue, refresh rotation, logout,
confirmation, password-reset confirm) are modelled from the specification and
marked as such in their doc comments.  Persistence is modelled as a list of
user records; the relational store's `findOneBy` is `List.find?`.
-/

/-- The `Profile` entity attached to each user on registration
(`new Profile()` in `UsersService.registerUser`); its own columns are not
relevant to the claims, so it is modelled as an empty record. -/
structure Profile where
deriving DecidableEq

/-- The `User` entity of `src/app/src/entities/user.entity.ts`:
`email` (unique text), `password` (nullable text, hashed by the
`BeforeInsert`/`BeforeUpdate` hook), `refresh_tokens` (text array, default
empty), `verified` (boolean, default false), `verification_code`
(nullable int), and the one-to-one `profile` relation (insert cascade).
`id` is the generated primary key inherited from the base entity. -/
structure User where
  id : String
  email : String
  password : Option String
  refreshTokens : List String
  verified : Bool
  verificationCode : Option Int
  profile : Option Profile
deriving DecidableEq

/-- The persisted table of users. -/
abbrev Store : Type := List User

/-- The domain-error taxonomy of §7 of the specification, mapped from the
exception classes raised by the services and translated by the controller. -/
inductive DomainError where
  | DuplicateEmail
  | NotFound
  | NotVerified
  | AlreadyConfirmed
  | AuthenticationFailed
  | InvalidToken
  | InvalidRefreshToken
  | InvalidVerificationCode
deriving DecidableEq

instance {ε α : Type} [DecidableEq ε] [DecidableEq α] : DecidableEq (Except ε α) :=
  fun a b =>
    match a, b with
    | .ok x, .ok y =>
      if h : x = y then .isTrue (by rw [h]) else .isFalse (by intro hc; cases hc; exact h rfl)
    | .ok _, .error _ => .isFalse (by intro hc; cases hc)
    | .error _, .ok _ => .isFalse (by intro hc; cases hc)
    | .error e, .error f =>
      if h : e = f then .isTrue (by rw [h]) else .isFalse (by intro hc; cases hc; exact h rfl)

/-- Boolean success test on `Except` results. -/
def exOk {ε α : Type} : Except ε α → Bool
  | .ok _ => true
  | .error _ => false

/-- Deterministic string code used by the model of the external hashing and
signing libraries (in place of an opaque library hash). -/
def strCode (s : String) : Nat :=
  s.data.foldl (fun h c => h * 131 + c.toNat) 7

/-- Lower-case letter used to render model salts and digests. -/
def base26Char (n : Nat) : Char :=
  Char.ofNat (97 + n % 26)

/-- Modelled from the spec: the 22-character salt block of a bcrypt hash,
generated by `bcrypt.genSalt()` (external hashing library); the `salt`
parameter stands for the library's randomness. -/
def saltChars (salt : Nat) : List Char :=
  (List.range 22).map (fun i => base26Char (salt / 26 ^ i))

/-- Modelled from the spec: the 31-character digest block of a bcrypt hash,
a one-way function of the salt block and the plaintext. -/
def bcryptDigest (saltCs : List Char) (p : String) : List Char :=
  (List.range 31).map
    (fun i => base26Char (strCode p + saltCs.foldl (fun h c => h * 131 + c.toNat) 7 + i))

/-- Modelled from the spec: `bcrypt.hash(p, salt)` — the external hashing
library's salted one-way hash, a 60-character modular-crypt-format string
`$2b$10$` + salt(22) + digest(31). -/
def bcryptHash (salt : Nat) (p : String) : String :=
  ⟨"$2b$10$".data ++ saltChars salt ++ bcryptDigest (saltChars salt) p⟩

/-- Modelled from the spec: `bcrypt.compare(p, h)` — parses the salt block
out of the stored hash, recomputes the digest for `p` under that salt and
compares it with the stored digest. -/
def bcryptCompare (p h : String) : Bool :=
  let cs := h.data
  cs.length == 60 &&
    cs.take 7 == "$2b$10$".data &&
    cs.drop 29 == bcryptDigest ((cs.drop 7).take 22) p

/-- The `@BeforeInsert`/`@BeforeUpdate` hook `User.hashPassword`: when the
`password` field is truthy (non-null, non-empty) it is replaced by its
bcrypt hash before the row is written. -/
def User.hashPassword (salt : Nat) (u : User) : User :=
  match u.password with
  | some p => if p = "" then u else { u with password := some (bcryptHash salt p) }
  | none => u

/-- `User.validatePassword`: `bcrypt.compare(password, this.password)`;
a null stored hash can match nothing. -/
def User.validatePassword (u : User) (password : String) : Bool :=
  match u.password with
  | some h => bcryptCompare password h
  | none => false

/-- Helper: write back the updated record for every row whose `id` matches
(the ORM's persist-by-primary-key). -/
def updateUser (store : Store) (uid : String) (u' : User) : Store :=
  List.map (fun v => if v.id == uid then u' else v) store

/-- The row created by `UsersService.registerUser`: `create(userInfo)` with
the column defaults (`verified=false`, empty `refresh_tokens`), a fresh
empty `Profile` attached, then saved through the `hashPassword` hook. -/
def newUserRecord (email password uidNew : String) (salt : Nat) : User :=
  User.hashPassword salt
    { id := uidNew, email := email, password := some password, refreshTokens := [],
      verified := false, verificationCode := none, profile := some {} }

/-- `UsersService.registerUser`: fails `DuplicateEmail` when `findOneBy`
finds a user with the email, otherwise creates the record (cascading the
profile insert) and returns the saved payload together with the new store. -/
def registerUser (store : Store) (email password uidNew : String) (salt : Nat) :
    Except DomainError (User × Store) :=
  match List.find? (fun u => u.email == email) store with
  | some _ => .error .DuplicateEmail
  | none =>
    let saved := newUserRecord email password uidNew salt
    .ok (saved, store ++ [saved])

/-- `UsersService.getUser`: `findOneBy({ id })`, returned as-is (null when
absent, no domain error). -/
def getUser (store : Store) (id : String) : Option User :=
  List.find? (fun u => u.id == id) store

/-- `UsersService.deleteUser`: looks the record up, issues the delete, and
returns the looked-up record (null when absent, no domain error). -/
def deleteUser (store : Store) (id : String) : Option User × Store :=
  (List.find? (fun u => u.id == id) store,
   List.filter (fun u => !(u.id == id)) store)

/-- `UsersService.checkIfEmailExist`: `UserNotFoundException` when no user
has the email, otherwise the user — with no check of `verified`. -/
def checkIfEmailExist (store : Store) (email : String) : Except DomainError User :=
  match List.find? (fun u => u.email == email) store with
  | none => .error .NotFound
  | some u => .ok u

/-- `UsersService.checkIfEmailVerified`: `UserNotFoundException` when no
user has the email, `UserNotVerifiedException` when it is not verified,
otherwise the user. -/
def checkIfEmailVerified (store : Store) (email : String) : Except DomainError User :=
  match List.find? (fun u => u.email == email) store with
  | none => .error .NotFound
  | some u => if u.verified then .ok u else .error .NotVerified

/-- `AuthController.resendConfirmationLink`: the `EmailExistGuard` runs
`checkIfEmailExist`; past the guard the handler only sends the confirmation
email and reports success (the success side effect is outside the store
model). -/
def resendConfirmationLink (store : Store) (email : String) : Except DomainError Unit :=
  match checkIfEmailExist store email with
  | .error e => .error e
  | .ok _ => .ok ()

/-- Modelled from the spec: the kind discriminator carried by every signed
token (§4.4 of the specification). -/
inductive TokenKind where
  | access
  | refresh
  | confirmation
deriving DecidableEq

/-- Numeric code of a token kind, folded into the signature. -/
def kindCode : TokenKind → Nat
  | .access => 0
  | .refresh => 1
  | .confirmation => 2

/-- Modelled from the spec: a signed, tamper-evident token payload —
subject (user id or email), identifier, kind discriminator, issued-at,
expiry, and the signature over all of them (§4.4). -/
structure Token where
  subject : String
  tokenId : String
  kind : TokenKind
  iat : Nat
  exp : Nat
  sig : Nat
deriving DecidableEq

/-- Modelled from the spec: the signature a given secret produces over a
token payload. -/
def tokenSig (secret : Nat) (subject tokenId : String) (kind : TokenKind) (iat exp : Nat) : Nat :=
  ((((secret * 131 + strCode subject) * 131 + strCode tokenId) * 131 + kindCode kind) * 131
      + iat) * 131 + exp + 1

/-- Modelled from the spec: issuing a token signs the payload with the
secret of its kind. -/
def signToken (secret : Nat) (subject tokenId : String) (kind : TokenKind) (iat exp : Nat) :
    Token :=
  { subject := subject, tokenId := tokenId, kind := kind, iat := iat, exp := exp,
    sig := tokenSig secret subject tokenId kind iat exp }

/-- Modelled from the spec: verification succeeds exactly when the
signature matches the secret, the kind is the expected one, and the expiry
is not in the past (§4.4). -/
def verifyToken (secret now : Nat) (kind : TokenKind) (t : Token) : Bool :=
  decide (t.sig = tokenSig secret t.subject t.tokenId t.kind t.iat t.exp ∧
    t.kind = kind ∧ now ≤ t.exp)

/-- Modelled from the spec: signing secrets and lifetimes — access and
refresh tokens use distinct secrets/expiries (§4.4), and the
confirmation/reset tokens their own. -/
structure Config where
  accessSecret : Nat
  refreshSecret : Nat
  confirmSecret : Nat
  accessTtl : Nat
  refreshTtl : Nat
deriving DecidableEq

/-- The `{accessToken, refreshToken}` pair returned by login and refresh. -/
structure LoginResponse where
  accessToken : Token
  refreshToken : Token
deriving DecidableEq

/-- Modelled from the spec: `AuthService.login` behind the controller's
`EmailVerifiedGuard` — the guard runs `checkIfEmailVerified` (`NotFound` /
`NotVerified`), then the service compares the password hash
(`AuthenticationFailed` on mismatch), issues an access and a refresh token,
appends the fresh refresh-token identifier `freshId` to the user's
`refreshTokens` and persists. -/
def login (cfg : Config) (store : Store) (email password : String) (now : Nat)
    (freshId : String) : Except DomainError (LoginResponse × Store) :=
  match checkIfEmailVerified store email with
  | .error e => .error e
  | .ok u =>
    if u.validatePassword password then
      .ok ({ accessToken := signToken cfg.accessSecret u.id "" .access now (now + cfg.accessTtl),
             refreshToken :=
               signToken cfg.refreshSecret u.id freshId .refresh now (now + cfg.refreshTtl) },
           updateUser store u.id { u with refreshTokens := u.refreshTokens ++ [freshId] })
    else .error .AuthenticationFailed

/-- The user record with one refresh-token identifier removed (logout's
single-session revocation). -/
def removeToken (u : User) (tokenId : String) : User :=
  { u with refreshTokens := List.filter (fun s => s != tokenId) u.refreshTokens }

/-- The user record after refresh-token rotation: the old identifier is
removed and the single newly issued identifier inserted in the same
update. -/
def rotateTokens (u : User) (oldId newId : String) : User :=
  { u with refreshTokens := List.filter (fun s => s != oldId) u.refreshTokens ++ [newId] }

/-- The user record written by a successful password-reset confirm: the new
password run through the hashing hook, and every session revoked. -/
def resetRecord (u : User) (newPassword : String) (salt : Nat) : User :=
  User.hashPassword salt { u with password := some newPassword, refreshTokens := [] }

/-- Email-uniqueness invariant that the store's unique constraint
maintains. -/
def emailUnique (store : Store) : Prop :=
  List.Pairwise (fun a b => a.email ≠ b.email) store

/-- Modelled from the spec: `AuthService.logout(userId, refreshToken)` —
fails `InvalidRefreshToken` if the identifier is not present in the user's
`refreshTokens`, otherwise removes that identifier only and persists
(`NotFound` for an unknown user id, which the bearer guard rules out). -/
def logout (store : Store) (userId tokenId : String) : Except DomainError Store :=
  match List.find? (fun u => u.id == userId) store with
  | none => .error .NotFound
  | some u =>
    if tokenId ∈ u.refreshTokens then
      .ok (updateUser store u.id (removeToken u tokenId))
    else .error .InvalidRefreshToken

/-- Modelled from the spec: `AuthService.getNewToken(oldRefreshToken)` —
fails `InvalidRefreshToken` if the token fails signature/expiry/kind
verification or its identifier is absent from the subject user's stored
`refreshTokens`; on success removes the old identifier, inserts the newly
issued identifier `freshId` in the same update, issues a fresh access
token, persists and returns both tokens. -/
def getNewToken (cfg : Config) (store : Store) (t : Token) (now : Nat) (freshId : String) :
    Except DomainError (LoginResponse × Store) :=
  if verifyToken cfg.refreshSecret now .refresh t then
    match List.find? (fun u => u.id == t.subject) store with
    | none => .error .InvalidRefreshToken
    | some u =>
      if t.tokenId ∈ u.refreshTokens then
        .ok ({ accessToken :=
                 signToken cfg.accessSecret u.id "" .access now (now + cfg.accessTtl),
               refreshToken :=
                 signToken cfg.refreshSecret u.id freshId .refresh now (now + cfg.refreshTtl) },
             updateUser store u.id (rotateTokens u t.tokenId freshId))
      else .error .InvalidRefreshToken
  else .error .InvalidRefreshToken

/-- Modelled from the spec: `AuthService.decodeConfirmationToken` — decodes
the confirmation token, failing `InvalidToken` on signature/expiry/kind
mismatch, and returns the email it encodes. -/
def decodeConfirmationToken (secret now : Nat) (t : Token) : Except DomainError String :=
  if verifyToken secret now .confirmation t then .ok t.subject else .error .InvalidToken

/-- Modelled from the spec: `AuthService.userConfirmation(email)` — looks
the user up by email (`NotFound`), fails `AlreadyConfirmed` if already
verified, else sets `verified := true` and persists. -/
def userConfirmation (store : Store) (email : String) : Except DomainError Store :=
  match List.find? (fun u => u.email == email) store with
  | none => .error .NotFound
  | some u =>
    if u.verified then .error .AlreadyConfirmed
    else .ok (updateUser store u.id { u with verified := true })

/-- `AuthController.userConfirmation`: decode the token, then confirm the
decoded email. -/
def confirm (cfg : Config) (store : Store) (now : Nat) (t : Token) :
    Except DomainError Store :=
  match decodeConfirmationToken cfg.confirmSecret now t with
  | .error e => .error e
  | .ok email => userConfirmation store email

/-- Modelled from the spec: `AuthService.resetPasswordConfirm` behind the
controller's `EmailVerifiedGuard` — fails `InvalidVerificationCode` when
the submitted code does not match the stored one or is no longer fresh
(`codeFresh` stands for the expiry check, whose storage is not among the
source files); on success stores the new password through the hashing hook,
empties `refreshTokens` and persists. -/
def resetPasswordConfirm (store : Store) (email : String) (code : Int)
    (newPassword : String) (codeFresh : Bool) (salt : Nat) : Except DomainError Store :=
  match checkIfEmailVerified store email with
  | .error e => .error e
  | .ok u =>
    if u.verificationCode = some code ∧ codeFresh then
      .ok (updateUser store u.id (resetRecord u newPassword salt))
    else .error .InvalidVerificationCode

/-- A concrete already-verified user record, used to evaluate the
operations on explicit inputs. -/
def verifiedUser : User :=
  { id := "u1", email := "a@x.com", password := some (bcryptHash 5 "Qwert12345!"),
    refreshTokens := ["A"], verified := true, verificationCode := some 1234,
    profile := some {} }

/-- A concrete unverified user record, used to evaluate the operations on
explicit inputs. -/
def unverifiedUser : User :=
  { id := "u2", email := "b@x.com", password := some (bcryptHash 6 "Qwert12345!"),
    refreshTokens := [], verified := false, verificationCode := none,
    profile := some {} }

/-- A concrete signing configuration used to evaluate the operations on
explicit inputs. -/
def sampleConfig : Config :=
  { accessSecret := 11, refreshSecret := 22, confirmSecret := 33,
    accessTtl := 100, refreshTtl := 200 }

/-! ### Shared lemmas about the store model -/

/-- Writing back a record that still satisfies the lookup predicate leaves
it the first match of the lookup. -/
theorem find?_updateUser (p : User → Bool) (store : Store) (u u' : User)
    (hu : List.find? p store = some u) (hid : u'.id = u.id) (hp : p u' = true) :
    List.find? p (updateUser store u.id u') = some u' := by
  induction store with
  | nil => simp at hu
  | cons v vs ih =>
    simp only [updateUser, List.map_cons]
    by_cases hv : (v.id == u.id) = true
    · rw [if_pos hv, List.find?_cons_of_pos _ hp]
    · rw [if_neg hv]
      have hpv : p v = false := by
        cases hpvt : p v
        · rfl
        · rw [List.find?_cons_of_pos _ hpvt] at hu
          injection hu with h
          subst h
          simp at hv
      rw [List.find?_cons_of_neg _ (by simp [hpv])]
      rw [List.find?_cons_of_neg _ (by simp [hpv])] at hu
      exact ih hu

/-- Writing back a record under an id that is present in the store makes it
the first match of the lookup by that id. -/
theorem find?_byId_updateUser (store : Store) (uid : String) (u' : User)
    (hid : u'.id = uid)
    (hex : (List.find? (fun v => v.id == uid) store).isSome = true) :
    List.find? (fun v => v.id == uid) (updateUser store uid u') = some u' := by
  induction store with
  | nil => simp at hex
  | cons v vs ih =>
    simp only [updateUser, List.map_cons]
    by_cases hv : (v.id == uid) = true
    · rw [if_pos hv, List.find?_cons_of_pos _ (by simp [hid])]
    · rw [if_neg hv]
      rw [List.find?_cons_of_neg _ (by simp_all)]
      apply ih
      rw [List.find?_cons_of_neg _ (by simp_all)] at hex
      exact hex

/-- The rotated token list no longer contains the old identifier. -/
theorem not_mem_rotated (l : List String) (tid fid : String) (hne : fid ≠ tid) :
    tid ∉ List.filter (fun s => s != tid) l ++ [fid] := by
  intro hmem
  rcases List.mem_append.mp hmem with h | h
  · have := (List.mem_filter.mp h).2
    simp at this
  · rw [List.mem_singleton] at h
    exact hne (h ▸ rfl)

/-- The hashing hook touches only the `password` column. -/
theorem hashPassword_fields (salt : Nat) (u : User) :
    (User.hashPassword salt u).id = u.id ∧ (User.hashPassword salt u).email = u.email ∧
    (User.hashPassword salt u).refreshTokens = u.refreshTokens ∧
    (User.hashPassword salt u).verified = u.verified ∧
    (User.hashPassword salt u).verificationCode = u.verificationCode ∧
    (User.hashPassword salt u).profile = u.profile := by
  unfold User.hashPassword
  cases hp : u.password with
  | none => simp
  | some p =>
    by_cases h : p = "" <;> simp [h]

/-- The model bcrypt hash is always 60 characters long. -/
theorem bcryptHash_length (salt : Nat) (p : String) : (bcryptHash salt p).length = 60 := by
  show ("$2b$10$".data ++ saltChars salt ++ bcryptDigest (saltChars salt) p).length = 60
  have h1 : (saltChars salt).length = 22 := by simp [saltChars]
  have h2 : (bcryptDigest (saltChars salt) p).length = 31 := by simp [bcryptDigest]
  simp [List.length_append, h1, h2]

/-- A plaintext that is not 60 characters long can never coincide with its
model bcrypt hash. -/
theorem bcryptHash_ne (salt : Nat) (p : String) (h : p.length ≠ 60) :
    bcryptHash salt p ≠ p := by
  intro hc
  apply h
  rw [← hc]
  exact bcryptHash_length salt p

/-- Verification accepts a token freshly signed with the same secret and
kind as long as its expiry is not yet past. -/
theorem verifyToken_signToken (secret now : Nat) (k : TokenKind) (subject tokenId : String)
    (iat xp : Nat) (h : now ≤ xp) :
    verifyToken secret now k (signToken secret subject tokenId k iat xp) = true := by
  simp [verifyToken, signToken, h]

/-! ### Claim theorems -/

/-- C5: every persisted user record with a non-empty password field stores
the salted bcrypt hash of the submitted plaintext (the `BeforeInsert` /
`BeforeUpdate` hook), and that stored value is never the plaintext itself
(for any plaintext that is not itself 60 characters, the fixed bcrypt
output length). -/
theorem claim5_password_hashed (salt : Nat) (u : User) (p : String)
    (hp : u.password = some p) (hne : p ≠ "") (hlen : p.length ≠ 60) :
    (User.hashPassword salt u).password = some (bcryptHash salt p) ∧
    (bcryptHash salt p).length = 60 ∧
    bcryptHash salt p ≠ p := by
  refine ⟨?_, bcryptHash_length salt p, bcryptHash_ne salt p hlen⟩
  unfold User.hashPassword
  rw [hp]
  simp [hne]

/-- C5 witness. -/
theorem claim5_password_hashed_witness :
    (User.hashPassword 5 { verifiedUser with password := some "Qwert12345!" }).password =
      some (bcryptHash 5 "Qwert12345!") ∧
    (bcryptHash 5 "Qwert12345!").length = 60 ∧
    bcryptHash 5 "Qwert12345!" ≠ "Qwert12345!" :=
  claim5_password_hashed 5 { verifiedUser with password := some "Qwert12345!" }
    "Qwert12345!" rfl (by decide) (by decide)

/-- C9: a successful registration always attaches a fresh empty `Profile`
to the created user and persists the record (profile included) together
with the user: the returned user carries the profile and is exactly the
record appended to the store. -/
theorem claim9_register_profile (store : Store) (email password uidNew : String)
    (salt : Nat) (u' : User) (s' : Store)
    (hok : registerUser store email password uidNew salt = .ok (u', s')) :
    u'.profile = some {} ∧ s' = store ++ [u'] ∧ u' ∈ s' := by
  unfold registerUser at hok
  cases hf : List.find? (fun u => u.email == email) store with
  | some w => rw [hf] at hok; cases hok
  | none =>
    rw [hf] at hok
    injection hok with h
    injection h with h1 h2
    subst h1
    subst h2
    refine ⟨?_, rfl, by simp⟩
    have := (hashPassword_fields salt
      { id := uidNew, email := email, password := some password, refreshTokens := [],
        verified := false, verificationCode := none, profile := some {} }).2.2.2.2.2
    exact this

/-- C9 witness. -/
theorem claim9_register_profile_witness :
    (newUserRecord "c@x.com" "Qwert12345!" "u9" 7).profile = some {} ∧
    ([] : Store) ++ [newUserRecord "c@x.com" "Qwert12345!" "u9" 7] =
      ([] : Store) ++ [newUserRecord "c@x.com" "Qwert12345!" "u9" 7] ∧
    newUserRecord "c@x.com" "Qwert12345!" "u9" 7 ∈
      ([] : Store) ++ [newUserRecord "c@x.com" "Qwert12345!" "u9" 7] := by
  have h := claim9_register_profile [] "c@x.com" "Qwert12345!" "u9" 7
    (newUserRecord "c@x.com" "Qwert12345!" "u9" 7)
    ([] ++ [newUserRecord "c@x.com" "Qwert12345!" "u9" 7]) rfl
  exact ⟨h.1, rfl, h.2.2⟩

/-- C10: `getUser` and `deleteUser` raise no domain error for an unknown
id — the lookup returns null, and the delete returns the (null) looked-up
record while leaving the table as it was. -/
theorem claim10_lookup_total (store : Store) (id : String)
    (h : ∀ u ∈ store, u.id ≠ id) :
    getUser store id = none ∧ deleteUser store id = (none, store) := by
  have hnone : List.find? (fun u => u.id == id) store = none := by
    rw [List.find?_eq_none]
    intro u hu
    simpa using h u hu
  refine ⟨hnone, ?_⟩
  unfold deleteUser
  rw [hnone]
  have hfilter : List.filter (fun u => !(u.id == id)) store = store := by
    rw [List.filter_eq_self]
    intro u hu
    simpa using h u hu
  rw [hfilter]

/-- C10 witness. -/
theorem claim10_lookup_total_witness :
    getUser [verifiedUser] "nobody" = none ∧
    deleteUser [verifiedUser] "nobody" = (none, [verifiedUser]) :=
  claim10_lookup_total [verifiedUser] "nobody" (by decide)

/-- C2: login fails `NotFound` when no user has the email, `NotVerified`
when the user exists but is not verified (whatever the password),
`AuthenticationFailed` when the user is verified but the hash comparison
fails, and only a verified user with a matching password obtains the token
pair. -/
theorem claim2_login_errors (cfg : Config) (store : Store) (email password : String)
    (now : Nat) (freshId : String) :
    (List.find? (fun u => u.email == email) store = none →
      login cfg store email password now freshId = .error .NotFound) ∧
    (∀ u, List.find? (fun u => u.email == email) store = some u → u.verified = false →
      login cfg store email password now freshId = .error .NotVerified) ∧
    (∀ u, List.find? (fun u => u.email == email) store = some u → u.verified = true →
      u.validatePassword password = false →
      login cfg store email password now freshId = .error .AuthenticationFailed) ∧
    (∀ u, List.find? (fun u => u.email == email) store = some u → u.verified = true →
      u.validatePassword password = true →
      login cfg store email password now freshId =
        .ok ({ accessToken := signToken cfg.accessSecret u.id "" .access now (now + cfg.accessTtl),
               refreshToken :=
                 signToken cfg.refreshSecret u.id freshId .refresh now (now + cfg.refreshTtl) },
             updateUser store u.id { u with refreshTokens := u.refreshTokens ++ [freshId] })) := by
  refine ⟨?_, ?_, ?_, ?_⟩
  · intro hf
    simp [login, checkIfEmailVerified, hf]
  · intro u hf hv
    simp [login, checkIfEmailVerified, hf, hv]
  · intro u hf hv hpw
    simp [login, checkIfEmailVerified, hf, hv, hpw]
  · intro u hf hv hpw
    simp [login, checkIfEmailVerified, hf, hv, hpw]

/-- C2 witness. -/
theorem claim2_login_errors_witness :
    login sampleConfig [] "a@x.com" "Qwert12345!" 0 "B" = .error .NotFound ∧
    login sampleConfig [unverifiedUser] "b@x.com" "Qwert12345!" 0 "B" =
      .error .NotVerified ∧
    login sampleConfig [verifiedUser] "a@x.com" "wrong" 0 "B" =
      .error .AuthenticationFailed ∧
    login sampleConfig [verifiedUser] "a@x.com" "Qwert12345!" 0 "B" =
      .ok ({ accessToken :=
               signToken sampleConfig.accessSecret verifiedUser.id "" .access 0
                 (0 + sampleConfig.accessTtl),
             refreshToken :=
               signToken sampleConfig.refreshSecret verifiedUser.id "B" .refresh 0
                 (0 + sampleConfig.refreshTtl) },
           updateUser [verifiedUser] verifiedUser.id
             { verifiedUser with refreshTokens := verifiedUser.refreshTokens ++ ["B"] }) :=
  ⟨(claim2_login_errors sampleConfig [] "a@x.com" "Qwert12345!" 0 "B").1 (by decide),
   (claim2_login_errors sampleConfig [unverifiedUser] "b@x.com" "Qwert12345!" 0 "B").2.1
     unverifiedUser (by decide) (by decide),
   (claim2_login_errors sampleConfig [verifiedUser] "a@x.com" "wrong" 0 "B").2.2.1
     verifiedUser (by decide) (by decide) (by decide),
   (claim2_login_errors sampleConfig [verifiedUser] "a@x.com" "Qwert12345!" 0 "B").2.2.2
     verifiedUser (by decide) (by decide) (by decide)⟩

/-- C8 counterexample: the store holds exactly one user with the given
email whose `verified` flag is already true, yet `resendConfirmationLink`
succeeds instead of failing `AlreadyConfirmed` — the endpoint is guarded
only by the existence check. -/
theorem claim8_resend_counterexample :
    verifiedUser.verified = true ∧
    resendConfirmationLink [verifiedUser] "a@x.com" = .ok () ∧
    resendConfirmationLink [verifiedUser] "a@x.com" ≠
      .error .AlreadyConfirmed := by decide

/-- C8 (amended): `resendConfirmationLink` fails `NotFound` when no user
has the email; for any existing user — already verified or not — it sends
the confirmation email and reports success, never failing
`AlreadyConfirmed`. -/
theorem claim8_resend_amended (store : Store) (email : String) :
    (List.find? (fun u => u.email == email) store = none →
      resendConfirmationLink store email = .error .NotFound) ∧
    (∀ u, List.find? (fun u => u.email == email) store = some u →
      resendConfirmationLink store email = .ok ()) := by
  constructor
  · intro hf
    simp [resendConfirmationLink, checkIfEmailExist, hf]
  · intro u hf
    simp [resendConfirmationLink, checkIfEmailExist, hf]

/-- C8 witness. -/
theorem claim8_resend_amended_witness :
    resendConfirmationLink [] "a@x.com" = .error .NotFound ∧
    resendConfirmationLink [verifiedUser] "a@x.com" = .ok () ∧
    resendConfirmationLink [unverifiedUser] "b@x.com" = .ok () :=
  ⟨(claim8_resend_amended [] "a@x.com").1 (by decide),
   (claim8_resend_amended [verifiedUser] "a@x.com").2 verifiedUser (by decide),
   (claim8_resend_amended [unverifiedUser] "b@x.com").2 unverifiedUser (by decide)⟩

/-- In a store satisfying the email-uniqueness invariant, an email that is
present is present on exactly one record. -/
theorem filter_length_of_emailUnique (store : Store) (email : String)
    (hun : emailUnique store) (hex : ∃ u ∈ store, u.email = email) :
    (List.filter (fun u => u.email == email) store).length = 1 := by
  induction store with
  | nil => simp at hex
  | cons v vs ih =>
    rw [emailUnique, List.pairwise_cons] at hun
    by_cases hve : v.email = email
    · have hnil : List.filter (fun u => u.email == email) vs = [] := by
        rw [List.filter_eq_nil_iff]
        intro a ha
        have hne := hun.1 a ha
        rw [hve] at hne
        simp
        exact fun hc => hne hc.symm
      simp [List.filter_cons, hve, hnil]
    · rcases hex with ⟨w, hw, hwe⟩
      rcases List.mem_cons.mp hw with h | h
      · exact absurd (h ▸ hwe) hve
      · have hrec := ih hun.2 ⟨w, h, hwe⟩
        have hbe : (v.email == email) = false := by simp [hve]
        simpa [List.filter_cons, hbe] using hrec

/-- C3: when a user with the email already exists, registration fails
`DuplicateEmail` and no store mutation is produced (under the store's
uniqueness invariant, exactly one record with that email remains); when no
such user exists, exactly one new record is created, with
`verified = false`. -/
theorem claim3_register_duplicate (store : Store) (email password uidNew : String)
    (salt : Nat) :
    (emailUnique store → (∃ u ∈ store, u.email = email) →
      registerUser store email password uidNew salt = .error .DuplicateEmail ∧
      (List.filter (fun u => u.email == email) store).length = 1) ∧
    (List.find? (fun u => u.email == email) store = none →
      registerUser store email password uidNew salt =
        .ok (newUserRecord email password uidNew salt,
             store ++ [newUserRecord email password uidNew salt]) ∧
      (newUserRecord email password uidNew salt).verified = false ∧
      (newUserRecord email password uidNew salt).email = email) := by
  constructor
  · intro hun hex
    refine ⟨?_, filter_length_of_emailUnique store email hun hex⟩
    rcases hex with ⟨w, hw, hwe⟩
    have : (List.find? (fun u => u.email == email) store).isSome = true := by
      rw [List.find?_isSome]
      exact ⟨w, hw, by simp [hwe]⟩
    cases hf : List.find? (fun u => u.email == email) store with
    | none => rw [hf] at this; simp at this
    | some z => simp [registerUser, hf]
  · intro hf
    have hfields := hashPassword_fields salt
      { id := uidNew, email := email, password := some password, refreshTokens := [],
        verified := false, verificationCode := none, profile := some {} }
    exact ⟨by simp [registerUser, hf], hfields.2.2.2.1, hfields.2.1⟩

/-- C3 witness. -/
theorem claim3_register_duplicate_witness :
    (registerUser [verifiedUser] "a@x.com" "Qwert12345!" "u3" 9 = .error .DuplicateEmail ∧
      (List.filter (fun u => u.email == "a@x.com") [verifiedUser]).length = 1) ∧
    (registerUser [] "a@x.com" "Qwert12345!" "u3" 9 =
        .ok (newUserRecord "a@x.com" "Qwert12345!" "u3" 9,
             [] ++ [newUserRecord "a@x.com" "Qwert12345!" "u3" 9]) ∧
      (newUserRecord "a@x.com" "Qwert12345!" "u3" 9).verified = false ∧
      (newUserRecord "a@x.com" "Qwert12345!" "u3" 9).email = "a@x.com") :=
  ⟨(claim3_register_duplicate [verifiedUser] "a@x.com" "Qwert12345!" "u3" 9).1
      (by simp [emailUnique]) ⟨verifiedUser, by simp, by decide⟩,
   (claim3_register_duplicate [] "a@x.com" "Qwert12345!" "u3" 9).2 (by decide)⟩

/-- C7: confirmation fails `InvalidToken` when the token fails
signature/expiry verification, `NotFound` when no user has the decoded
email, `AlreadyConfirmed` when the user is already verified; otherwise it
sets `verified := true` and persists — and a second confirmation of the
same email then fails `AlreadyConfirmed`, so `verified` is set true exactly
once. -/
theorem claim7_confirmation (cfg : Config) (store : Store) (now : Nat) (t : Token) :
    (verifyToken cfg.confirmSecret now .confirmation t = false →
      confirm cfg store now t = .error .InvalidToken) ∧
    (verifyToken cfg.confirmSecret now .confirmation t = true →
      List.find? (fun u => u.email == t.subject) store = none →
      confirm cfg store now t = .error .NotFound) ∧
    (∀ u, verifyToken cfg.confirmSecret now .confirmation t = true →
      List.find? (fun u => u.email == t.subject) store = some u → u.verified = true →
      confirm cfg store now t = .error .AlreadyConfirmed) ∧
    (∀ u, verifyToken cfg.confirmSecret now .confirmation t = true →
      List.find? (fun u => u.email == t.subject) store = some u → u.verified = false →
      confirm cfg store now t = .ok (updateUser store u.id { u with verified := true }) ∧
      userConfirmation (updateUser store u.id { u with verified := true }) t.subject =
        .error .AlreadyConfirmed) := by
  refine ⟨?_, ?_, ?_, ?_⟩
  · intro hv
    simp [confirm, decodeConfirmationToken, hv]
  · intro hv hf
    simp [confirm, decodeConfirmationToken, hv, userConfirmation, hf]
  · intro u hv hf hver
    simp [confirm, decodeConfirmationToken, hv, userConfirmation, hf, hver]
  · intro u hv hf hver
    constructor
    · simp [confirm, decodeConfirmationToken, hv, userConfirmation, hf, hver]
    · have hfind : List.find? (fun w => w.email == t.subject)
          (updateUser store u.id { u with verified := true }) =
          some { u with verified := true } := by
        exact find?_updateUser (fun w => w.email == t.subject) store u
          { u with verified := true } hf rfl (by simpa using List.find?_some hf)
      simp [userConfirmation, hfind]

/-- C7 witness. -/
theorem claim7_confirmation_witness :
    confirm sampleConfig [unverifiedUser] 0
        { subject := "b@x.com", tokenId := "", kind := .confirmation, iat := 0, exp := 50,
          sig := 0 } = .error .InvalidToken ∧
    confirm sampleConfig []
        0 (signToken 33 "b@x.com" "" .confirmation 0 50) = .error .NotFound ∧
    confirm sampleConfig [verifiedUser] 0
        (signToken 33 "a@x.com" "" .confirmation 0 50) = .error .AlreadyConfirmed ∧
    (confirm sampleConfig [unverifiedUser] 0 (signToken 33 "b@x.com" "" .confirmation 0 50) =
        .ok (updateUser [unverifiedUser] unverifiedUser.id
          { unverifiedUser with verified := true }) ∧
      userConfirmation
          (updateUser [unverifiedUser] unverifiedUser.id
            { unverifiedUser with verified := true }) "b@x.com" =
        .error .AlreadyConfirmed) :=
  ⟨(claim7_confirmation sampleConfig [unverifiedUser] 0
      { subject := "b@x.com", tokenId := "", kind := .confirmation, iat := 0, exp := 50,
        sig := 0 }).1 (by decide),
   (claim7_confirmation sampleConfig [] 0
      (signToken 33 "b@x.com" "" .confirmation 0 50)).2.1 (by decide) (by decide),
   (claim7_confirmation sampleConfig [verifiedUser] 0
      (signToken 33 "a@x.com" "" .confirmation 0 50)).2.2.1 verifiedUser
      (by decide) (by decide) (by decide),
   (claim7_confirmation sampleConfig [unverifiedUser] 0
      (signToken 33 "b@x.com" "" .confirmation 0 50)).2.2.2 unverifiedUser
      (by decide) (by decide) (by decide)⟩

/-- C6: logout fails `InvalidRefreshToken` when the targeted identifier is
not stored; on success it removes exactly the targeted identifier, leaves
every other identifier and every other column of the record unchanged, and
the remaining identifier is still accepted by a subsequent refresh. -/
theorem claim6_logout_frame (store : Store) (uid tokA tokB : String) (u : User)
    (hu : List.find? (fun v => v.id == uid) store = some u)
    (hAB : tokA ≠ tokB) (hB : tokB ∈ u.refreshTokens) :
    (tokA ∉ u.refreshTokens → logout store uid tokA = .error .InvalidRefreshToken) ∧
    (tokA ∈ u.refreshTokens →
      logout store uid tokA = .ok (updateUser store u.id (removeToken u tokA)) ∧
      (removeToken u tokA).refreshTokens =
        List.filter (fun s => s != tokA) u.refreshTokens ∧
      tokA ∉ (removeToken u tokA).refreshTokens ∧
      tokB ∈ (removeToken u tokA).refreshTokens ∧
      (removeToken u tokA).id = u.id ∧ (removeToken u tokA).email = u.email ∧
      (removeToken u tokA).password = u.password ∧
      (removeToken u tokA).verified = u.verified ∧
      (removeToken u tokA).verificationCode = u.verificationCode ∧
      (removeToken u tokA).profile = u.profile ∧
      ∀ cfg : Config, ∀ iat xp now2 : Nat, ∀ freshId2 : String, now2 ≤ xp →
        exOk (getNewToken cfg (updateUser store u.id (removeToken u tokA))
          (signToken cfg.refreshSecret u.id tokB .refresh iat xp) now2 freshId2) = true) := by
  have huid : u.id = uid := by simpa using List.find?_some hu
  subst huid
  have hBmem : tokB ∈ (removeToken u tokA).refreshTokens := by
    simp only [removeToken, List.mem_filter]
    refine ⟨hB, ?_⟩
    simp
    exact fun hc => hAB hc.symm
  constructor
  · intro hA
    simp [logout, hu, hA]
  · intro hA
    refine ⟨by simp [logout, hu, hA], rfl, ?_, hBmem, rfl, rfl, rfl, rfl, rfl, rfl, ?_⟩
    · simp [removeToken, List.mem_filter]
    · intro cfg iat xp now2 freshId2 hle
      have hv := verifyToken_signToken cfg.refreshSecret now2 .refresh u.id tokB iat xp hle
      have hfind : List.find? (fun v => v.id == u.id)
          (updateUser store u.id (removeToken u tokA)) = some (removeToken u tokA) :=
        find?_updateUser (fun v => v.id == u.id) store u (removeToken u tokA) hu rfl
          (by simp [removeToken])
      simp only [signToken] at hv
      simp [getNewToken, signToken, hv, hfind, hBmem, exOk]

/-- C6 witness. -/
theorem claim6_logout_frame_witness :
    logout [{ verifiedUser with refreshTokens := ["A", "B"] }] "u1" "C" =
      .error .InvalidRefreshToken ∧
    logout [{ verifiedUser with refreshTokens := ["A", "B"] }] "u1" "A" =
      .ok (updateUser [{ verifiedUser with refreshTokens := ["A", "B"] }] "u1"
        (removeToken { verifiedUser with refreshTokens := ["A", "B"] } "A")) ∧
    "B" ∈ (removeToken { verifiedUser with refreshTokens := ["A", "B"] } "A").refreshTokens ∧
    exOk (getNewToken sampleConfig
      (updateUser [{ verifiedUser with refreshTokens := ["A", "B"] }] "u1"
        (removeToken { verifiedUser with refreshTokens := ["A", "B"] } "A"))
      (signToken sampleConfig.refreshSecret "u1" "B" .refresh 0 50) 0 "Z") = true := by
  have hfail := (claim6_logout_frame [{ verifiedUser with refreshTokens := ["A", "B"] }]
    "u1" "C" "B" { verifiedUser with refreshTokens := ["A", "B"] }
    (by decide) (by decide) (by decide)).1 (by decide)
  have hsucc := (claim6_logout_frame [{ verifiedUser with refreshTokens := ["A", "B"] }]
    "u1" "A" "B" { verifiedUser with refreshTokens := ["A", "B"] }
    (by decide) (by decide) (by decide)).2 (by decide)
  exact ⟨hfail, hsucc.1, hsucc.2.2.2.1,
    hsucc.2.2.2.2.2.2.2.2.2.2 sampleConfig 0 50 0 "Z" (by decide)⟩

/-- C4: password-reset confirmation fails `InvalidVerificationCode` when
the code is mismatched or no longer fresh; on success it stores the bcrypt
hash of the new password, empties the user's `refreshTokens`, and every
refresh token issued before the reset subsequently fails on refresh with
`InvalidRefreshToken`. -/
theorem claim4_reset_confirm (store : Store) (email : String) (code : Int)
    (newPassword : String) (codeFresh : Bool) (salt : Nat) (u : User)
    (hu : List.find? (fun v => v.email == email) store = some u)
    (hver : u.verified = true) (hnp : newPassword ≠ "") :
    (¬(u.verificationCode = some code ∧ codeFresh = true) →
      resetPasswordConfirm store email code newPassword codeFresh salt =
        .error .InvalidVerificationCode) ∧
    (u.verificationCode = some code → codeFresh = true →
      resetPasswordConfirm store email code newPassword codeFresh salt =
        .ok (updateUser store u.id (resetRecord u newPassword salt)) ∧
      (resetRecord u newPassword salt).password = some (bcryptHash salt newPassword) ∧
      (resetRecord u newPassword salt).refreshTokens = [] ∧
      ∀ cfg : Config, ∀ t : Token, ∀ now2 : Nat, ∀ freshId2 : String, t.subject = u.id →
        getNewToken cfg (updateUser store u.id (resetRecord u newPassword salt)) t now2
          freshId2 = .error .InvalidRefreshToken) := by
  have hRT : (resetRecord u newPassword salt).refreshTokens = [] := by
    have := (hashPassword_fields salt
      { u with password := some newPassword, refreshTokens := [] }).2.2.1
    simpa [resetRecord] using this
  have hid : (resetRecord u newPassword salt).id = u.id := by
    have := (hashPassword_fields salt
      { u with password := some newPassword, refreshTokens := [] }).1
    simpa [resetRecord] using this
  constructor
  · intro hcond
    simp [resetPasswordConfirm, checkIfEmailVerified, hu, hver, hcond]
  · intro hcode hfresh
    refine ⟨by simp [resetPasswordConfirm, checkIfEmailVerified, hu, hver, hcode, hfresh],
      by simp [resetRecord, User.hashPassword, hnp], hRT, ?_⟩
    intro cfg t now2 freshId2 hsub
    by_cases hv2 : verifyToken cfg.refreshSecret now2 .refresh t = true
    · have hex : (List.find? (fun v => v.id == u.id) store).isSome = true := by
        rw [List.find?_isSome]
        exact ⟨u, List.mem_of_find?_eq_some hu, by simp⟩
      have hfind : List.find? (fun v => v.id == u.id)
          (updateUser store u.id (resetRecord u newPassword salt)) =
          some (resetRecord u newPassword salt) :=
        find?_byId_updateUser store u.id (resetRecord u newPassword salt) hid hex
      simp [getNewToken, hv2, hsub, hfind, hRT]
    · simp [getNewToken, hv2]

/-- C4 witness. -/
theorem claim4_reset_confirm_witness :
    resetPasswordConfirm [verifiedUser] "a@x.com" 9999 "Newpass123!" true 8 =
      .error .InvalidVerificationCode ∧
    resetPasswordConfirm [verifiedUser] "a@x.com" 1234 "Newpass123!" true 8 =
      .ok (updateUser [verifiedUser] verifiedUser.id
        (resetRecord verifiedUser "Newpass123!" 8)) ∧
    (resetRecord verifiedUser "Newpass123!" 8).password =
      some (bcryptHash 8 "Newpass123!") ∧
    (resetRecord verifiedUser "Newpass123!" 8).refreshTokens = [] ∧
    getNewToken sampleConfig
      (updateUser [verifiedUser] verifiedUser.id (resetRecord verifiedUser "Newpass123!" 8))
      (signToken sampleConfig.refreshSecret "u1" "A" .refresh 0 50) 0 "Z" =
      .error .InvalidRefreshToken := by
  have hfail := (claim4_reset_confirm [verifiedUser] "a@x.com" 9999 "Newpass123!" true 8
    verifiedUser (by decide) (by decide) (by decide)).1 (by decide)
  have hsucc := (claim4_reset_confirm [verifiedUser] "a@x.com" 1234 "Newpass123!" true 8
    verifiedUser (by decide) (by decide) (by decide)).2 (by decide) (by decide)
  exact ⟨hfail, hsucc.1, hsucc.2.1, hsucc.2.2.1,
    hsucc.2.2.2 sampleConfig (signToken sampleConfig.refreshSecret "u1" "A" .refresh 0 50)
      0 "Z" (by decide)⟩

/-- C1: a refresh succeeds only if the token passes signature/expiry
verification and its identifier is among the subject user's stored
`refreshTokens`; on success exactly one newly issued identifier replaces
the old one in the same update, so replaying the same old token afterwards
fails with `InvalidRefreshToken`. -/
theorem claim1_refresh_rotation (cfg : Config) (store : Store) (t : Token) (now : Nat)
    (freshId : String) (u : User) (resp : LoginResponse) (s' : Store)
    (hu : List.find? (fun v => v.id == t.subject) store = some u)
    (hok : getNewToken cfg store t now freshId = .ok (resp, s'))
    (hfresh : freshId ≠ t.tokenId) :
    verifyToken cfg.refreshSecret now .refresh t = true ∧
    t.tokenId ∈ u.refreshTokens ∧
    s' = updateUser store u.id (rotateTokens u t.tokenId freshId) ∧
    (rotateTokens u t.tokenId freshId).refreshTokens =
      List.filter (fun s => s != t.tokenId) u.refreshTokens ++ [freshId] ∧
    ∀ now2 : Nat, ∀ freshId2 : String,
      getNewToken cfg s' t now2 freshId2 = .error .InvalidRefreshToken := by
  cases hv : verifyToken cfg.refreshSecret now .refresh t with
  | false => simp [getNewToken, hv] at hok
  | true =>
    by_cases hmem : t.tokenId ∈ u.refreshTokens
    · simp [getNewToken, hv, hu, hmem] at hok
      have hs' : s' = updateUser store u.id (rotateTokens u t.tokenId freshId) := hok.2.symm
      refine ⟨rfl, hmem, hs', rfl, ?_⟩
      intro now2 freshId2
      subst hs'
      have hfind : List.find? (fun v => v.id == t.subject)
          (updateUser store u.id (rotateTokens u t.tokenId freshId)) =
          some (rotateTokens u t.tokenId freshId) :=
        find?_updateUser (fun v => v.id == t.subject) store u
          (rotateTokens u t.tokenId freshId) hu rfl
          (by simpa [rotateTokens] using List.find?_some hu)
      have hnm : t.tokenId ∉ (rotateTokens u t.tokenId freshId).refreshTokens :=
        not_mem_rotated u.refreshTokens t.tokenId freshId hfresh
      by_cases hv2 : verifyToken cfg.refreshSecret now2 .refresh t = true
      · simp [getNewToken, hv2, hfind, hnm]
      · simp [getNewToken, hv2]
    · simp [getNewToken, hv, hu, hmem] at hok

/-- C1 witness. -/
theorem claim1_refresh_rotation_witness :
    verifyToken sampleConfig.refreshSecret 0 .refresh
      (signToken sampleConfig.refreshSecret "u1" "A" .refresh 0 50) = true ∧
    "A" ∈ verifiedUser.refreshTokens ∧
    updateUser [verifiedUser] verifiedUser.id (rotateTokens verifiedUser "A" "B") =
      updateUser [verifiedUser] verifiedUser.id (rotateTokens verifiedUser "A" "B") ∧
    (rotateTokens verifiedUser "A" "B").refreshTokens =
      List.filter (fun s => s != "A") verifiedUser.refreshTokens ++ ["B"] ∧
    getNewToken sampleConfig
      (updateUser [verifiedUser] verifiedUser.id (rotateTokens verifiedUser "A" "B"))
      (signToken sampleConfig.refreshSecret "u1" "A" .refresh 0 50) 0 "C" =
      .error .InvalidRefreshToken := by
  have h := claim1_refresh_rotation sampleConfig [verifiedUser]
    (signToken sampleConfig.refreshSecret "u1" "A" .refresh 0 50) 0 "B" verifiedUser
    { accessToken := signToken sampleConfig.accessSecret "u1" "" .access 0 100,
      refreshToken := signToken sampleConfig.refreshSecret "u1" "B" .refresh 0 200 }
    (updateUser [verifiedUser] verifiedUser.id (rotateTokens verifiedUser "A" "B"))
    (by decide) (by decide) (by decide)
  exact ⟨h.1, h.2.1, rfl, h.2.2.2.1, h.2.2.2.2 0 "C"⟩
